import Mathlib

/-!
Verification of the Posts resource of the devConnector backend
(`src/routes/api/posts.js`) against its natural-language specification.

The route handlers are shallowly embedded as pure functions over an
explicit store state (`List Post`, standing for the MongoDB `posts`
collection).  Identifiers (post ids, comment ids, user ids) are strings,
as in the source, where MongoDB ObjectIds are compared via `toString()`
and `===`.  Each handler returns an HTTP response outcome together with
the store state after the request.
-/

namespace DevConnector

/-- A like subdocument: `{ user: <id> }` (see `post.likes.unshift({ user: req.user.id })`). -/
structure Like where
  user : String
deriving DecidableEq

/-- A comment subdocument of a post, as built in the POST `/comment/:id`
handler (text, author's name/avatar, author id) plus the store-assigned
subdocument id `cid` (mongoose `comment.id`). -/
structure Comment where
  cid : String
  text : String
  name : String
  avatar : String
  user : String
deriving DecidableEq

/-- A Post document (`models/Post`): text, denormalized author name/avatar,
author id `user`, embedded `likes` and `comments`, creation date. -/
structure Post where
  pid : String
  text : String
  name : String
  avatar : String
  user : String
  likes : List Like
  comments : List Comment
  date : Nat
deriving DecidableEq

/-- The MongoDB `posts` collection. -/
abbrev Store := List Post

/-- Outcome of one HTTP request, as produced by the handlers:
`ok` (200 with a JSON body), `badRequest` (400), `unauthorized` (401),
`notFound` (404), `serverError` (500, generic message), and
`noResponse` for a handler that throws without ever sending a response
(an unhandled rejection inside the async handler). -/
inductive Resp (α : Type)
  | ok (body : α)
  | badRequest (msg : String)
  | unauthorized (msg : String)
  | notFound (msg : String)
  | serverError
  | noResponse
deriving DecidableEq

/-- Modelled from the driver contract: `Post.findById` accepts only
well-formed ObjectIds (24 hexadecimal characters) and raises a
`CastError` otherwise. -/
def isValidObjectId (s : String) : Bool :=
  s.length == 24 && s.toList.all fun c =>
    c.isDigit || ('a' ≤ c && c ≤ 'f') || ('A' ≤ c && c ≤ 'F')

/-- Result of `await Post.findById(id)`: the document, `null` when no
document has that id, or a thrown `CastError` when the id is malformed. -/
inductive FindResult
  | found (p : Post)
  | nullDoc
  | castError
deriving DecidableEq

/-- `Post.findById(pid)` over the collection. -/
def findById (s : Store) (pid : String) : FindResult :=
  if isValidObjectId pid then
    match s.find? (fun q => q.pid == pid) with
    | some p => .found p
    | none => .nullDoc
  else .castError

/-- `post.save()`: update-in-place of the document keyed by its id
(ids are store-assigned and unique, so this rewrites exactly the saved
document's slot). -/
def saveP (s : Store) (p : Post) : Store :=
  s.map fun q => if q.pid = p.pid then p else q

/-- POST `/` handler (create a post): validates `text` non-empty, then
builds a new Post with the author's denormalized name/avatar, empty
likes/comments, and persists it.  The store-assigned id and date are
parameters, as is the author profile data fetched from the User store. -/
def createPost (s : Store) (pid text name avatar uid : String) (date : Nat) :
    Resp Post × Store :=
  if text.isEmpty then (.badRequest "Text is required", s)
  else
    let newPost : Post :=
      { pid := pid, text := text, name := name, avatar := avatar, user := uid
        likes := [], comments := [], date := date }
    (.ok newPost, s ++ [newPost])

/-- GET `/:id` handler: 404 when the document is `null`; a `CastError`
is recognized in the catch block and remapped to 404. -/
def getPost (s : Store) (pid : String) : Resp Post :=
  match findById s pid with
  | .castError => .notFound "Post not found"
  | .nullDoc => .notFound "Post not found"
  | .found p => .ok p

/-- DELETE `/:id` handler: 404 when missing or malformed (CastError is
remapped in the catch block), 401 when the requester is not the post's
owner, otherwise `post.remove()`. -/
def deletePost (s : Store) (pid uid : String) : Resp String × Store :=
  match findById s pid with
  | .castError => (.notFound "Post not found", s)
  | .nullDoc => (.notFound "Post not found", s)
  | .found post =>
    if post.user != uid then (.unauthorized "User not authorized", s)
    else (.ok "Post removed", s.filter fun q => !(q.pid == post.pid))

/-- PUT `/like/:id` handler.  This handler has no `null` check and no
`CastError` remap: a malformed id throws a `CastError` and a missing post
makes `post.likes` throw a `TypeError`; both land in the generic catch
block, which responds 500. -/
def likePost (s : Store) (pid uid : String) : Resp (List Like) × Store :=
  match findById s pid with
  | .castError => (.serverError, s)
  | .nullDoc => (.serverError, s)
  | .found post =>
    if (post.likes.filter fun l => l.user == uid).length > 0 then
      (.badRequest "Post already liked", s)
    else
      let post' : Post := { post with likes := ⟨uid⟩ :: post.likes }
      (.ok post'.likes, saveP s post')

/-- PUT `/unlike/:id` handler.  Same missing `null`/CastError handling as
`likePost` (both surface as 500).  On success it removes the entry at
`likes.map(user).indexOf(uid)` via `splice(removeIndex, 1)`; the guard
guarantees the index exists. -/
def unlikePost (s : Store) (pid uid : String) : Resp (List Like) × Store :=
  match findById s pid with
  | .castError => (.serverError, s)
  | .nullDoc => (.serverError, s)
  | .found post =>
    if (post.likes.filter fun l => l.user == uid).length == 0 then
      (.badRequest "Post has not yet been liked", s)
    else
      let removeIndex := (post.likes.map fun l => l.user).indexOf uid
      let post' : Post := { post with likes := post.likes.eraseIdx removeIndex }
      (.ok post'.likes, saveP s post')

/-- POST `/comment/:id` handler: validates `text` non-empty before the
try block; then (no `null` check — a missing post's `comments.unshift`
throws, caught as 500) prepends the new comment and persists.  The
store-assigned comment id and the author's profile data are parameters. -/
def addComment (s : Store) (pid cid text name avatar uid : String) :
    Resp (List Comment) × Store :=
  if text.isEmpty then (.badRequest "Text is required", s)
  else
    match findById s pid with
    | .castError => (.serverError, s)
    | .nullDoc => (.serverError, s)
    | .found post =>
      let newComment : Comment :=
        { cid := cid, text := text, name := name, avatar := avatar, user := uid }
      let post' : Post := { post with comments := newComment :: post.comments }
      (.ok post'.comments, saveP s post')

/-- DELETE `/comment/:id/:comment_id` handler.  No `null` check on the
post, and the catch block reads `err.message` while its parameter is
named `error`: any throw (CastError on a malformed id, TypeError on a
missing post) re-throws inside the catch and the request gets no
response at all (`noResponse`).  When the post exists: 404 if no comment
matches `comment_id`, 401 if the requester does not own that comment,
and otherwise the removal index is computed by matching the REQUESTER id
against comment authors (`comments.map(user).indexOf(req.user.id)`),
not by the resolved `comment_id`. -/
def deleteComment (s : Store) (pid commentId uid : String) :
    Resp (List Comment) × Store :=
  match findById s pid with
  | .castError => (.noResponse, s)
  | .nullDoc => (.noResponse, s)
  | .found post =>
    match post.comments.find? (fun c => c.cid == commentId) with
    | none => (.notFound "Comment does not exists", s)
    | some comment =>
      if comment.user != uid then (.unauthorized "User not authorized", s)
      else
        let removeIndex := (post.comments.map fun c => c.user).indexOf uid
        let post' : Post := { post with comments := post.comments.eraseIdx removeIndex }
        (.ok post'.comments, saveP s post')

/-- The per-post likes invariant: at most one like entry per distinct
user id. -/
def likesNodup (p : Post) : Prop := (p.likes.map Like.user).Nodup

/-- The store invariant: every post in the collection satisfies
`likesNodup`. -/
def storeInv (s : Store) : Prop := ∀ p ∈ s, likesNodup p

/-- One sequential execution step of the Post Service: any one of the
mutating operations, with arbitrary request parameters. -/
inductive Step : Store → Store → Prop
  | create (s : Store) (pid text name avatar uid : String) (date : Nat) :
      Step s (createPost s pid text name avatar uid date).2
  | like (s : Store) (pid uid : String) :
      Step s (likePost s pid uid).2
  | unlike (s : Store) (pid uid : String) :
      Step s (unlikePost s pid uid).2
  | comment (s : Store) (pid cid text name avatar uid : String) :
      Step s (addComment s pid cid text name avatar uid).2
  | uncomment (s : Store) (pid commentId uid : String) :
      Step s (deleteComment s pid commentId uid).2
  | remove (s : Store) (pid uid : String) :
      Step s (deletePost s pid uid).2

/-- Store states reachable from the empty collection by sequential
execution of Post Service operations. -/
inductive Reachable : Store → Prop
  | nil : Reachable []
  | step {s s' : Store} : Reachable s → Step s s' → Reachable s'

/-! ### Basic lemmas about the store primitives -/

theorem findById_eq_found {s : Store} {pid : String} {p : Post} :
    findById s pid = .found p ↔
      isValidObjectId pid = true ∧ s.find? (fun q => q.pid == pid) = some p := by
  unfold findById
  split
  · rename_i hv
    constructor
    · intro h
      refine ⟨hv, ?_⟩
      revert h
      split
      · rename_i q hq
        intro h
        cases h
        exact hq
      · intro h
        cases h
    · rintro ⟨-, hf⟩
      rw [hf]
  · rename_i hv
    constructor
    · intro h
      cases h
    · rintro ⟨hvv, -⟩
      exact absurd hvv (by simpa using hv)

theorem findById_found_mem {s : Store} {pid : String} {p : Post}
    (h : findById s pid = .found p) : p ∈ s ∧ p.pid = pid := by
  rw [findById_eq_found] at h
  refine ⟨List.mem_of_find?_eq_some h.2, ?_⟩
  have := List.find?_some h.2
  simpa using this

theorem find?_saveP {s : Store} {pid : String} {p' : Post} (hpid : p'.pid = pid)
    (h : (s.find? fun q => q.pid == pid).isSome = true) :
    (saveP s p').find? (fun q => q.pid == pid) = some p' := by
  induction s with
  | nil => simp at h
  | cons q rest ih =>
    have hsave : saveP (q :: rest) p' = (if q.pid = p'.pid then p' else q) :: saveP rest p' := by
      simp [saveP]
    by_cases hq : q.pid = pid
    · have h1 : (if q.pid = p'.pid then p' else q) = p' := by rw [hpid]; simp [hq]
      rw [hsave, h1, List.find?_cons_of_pos]
      simp [hpid]
    · have h1 : (if q.pid = p'.pid then p' else q) = q := by rw [hpid]; simp [hq]
      have h2 : (q.pid == pid) = false := by simpa using hq
      rw [List.find?_cons, h2] at h
      rw [hsave, h1, List.find?_cons_of_neg]
      · exact ih h
      · simp [hq]

theorem findById_saveP {s : Store} {pid : String} {p p' : Post}
    (h : findById s pid = .found p) (hpid : p'.pid = pid) :
    findById (saveP s p') pid = .found p' := by
  rw [findById_eq_found] at h ⊢
  exact ⟨h.1, find?_saveP hpid (by simp [h.2])⟩

/-! ### The likes invariant and its preservation by every operation -/

theorem likesNodup_prepend {post : Post} {uid : String}
    (hnd : likesNodup post)
    (hno : (post.likes.filter fun l => l.user == uid).length = 0) :
    likesNodup { post with likes := ⟨uid⟩ :: post.likes } := by
  unfold likesNodup at *
  simp only [List.map_cons]
  refine List.nodup_cons.mpr ⟨?_, hnd⟩
  intro hmem
  rw [List.length_eq_zero, List.filter_eq_nil_iff] at hno
  obtain ⟨l, hl, hlu⟩ := List.mem_map.mp hmem
  exact hno l hl (by simp [hlu])

theorem likesNodup_eraseIdx {post : Post} (hnd : likesNodup post) (i : Nat) :
    likesNodup { post with likes := post.likes.eraseIdx i } :=
  List.Nodup.sublist ((List.eraseIdx_sublist post.likes i).map Like.user) hnd

theorem storeInv_saveP {s : Store} {p : Post} (hs : storeInv s) (hp : likesNodup p) :
    storeInv (saveP s p) := by
  intro q hq
  obtain ⟨r, hr, rfl⟩ := List.mem_map.mp hq
  by_cases h : r.pid = p.pid
  · simpa [h] using hp
  · simpa [h] using hs r hr

theorem storeInv_createPost {s : Store} {pid text name avatar uid : String} {date : Nat}
    (hs : storeInv s) : storeInv (createPost s pid text name avatar uid date).2 := by
  by_cases ht : text.isEmpty
  · simpa [createPost, ht] using hs
  · intro p hp
    simp only [createPost, ht, Bool.false_eq_true, if_false, List.mem_append,
      List.mem_singleton] at hp
    rcases hp with h | h
    · exact hs p h
    · subst h
      simp [likesNodup]

theorem storeInv_likePost {s : Store} {pid uid : String} (hs : storeInv s) :
    storeInv (likePost s pid uid).2 := by
  cases hf : findById s pid with
  | castError => simpa [likePost, hf] using hs
  | nullDoc => simpa [likePost, hf] using hs
  | found post =>
    by_cases hg : (post.likes.filter fun l => l.user == uid).length > 0
    · simpa [likePost, hf, hg] using hs
    · have hno : (post.likes.filter fun l => l.user == uid).length = 0 := by omega
      have h2 : storeInv (saveP s { post with likes := ⟨uid⟩ :: post.likes }) :=
        storeInv_saveP hs
          (likesNodup_prepend (hs post (findById_found_mem hf).1) hno)
      simpa [likePost, hf, hg] using h2

theorem storeInv_unlikePost {s : Store} {pid uid : String} (hs : storeInv s) :
    storeInv (unlikePost s pid uid).2 := by
  cases hf : findById s pid with
  | castError => simpa [unlikePost, hf] using hs
  | nullDoc => simpa [unlikePost, hf] using hs
  | found post =>
    by_cases hg : (post.likes.filter fun l => l.user == uid).length = 0
    · simpa [unlikePost, hf, hg] using hs
    · have h2 : storeInv (saveP s { post with
          likes := post.likes.eraseIdx ((post.likes.map fun l => l.user).indexOf uid) }) :=
        storeInv_saveP hs
          (likesNodup_eraseIdx (hs post (findById_found_mem hf).1) _)
      simpa [unlikePost, hf, hg] using h2

theorem storeInv_addComment {s : Store} {pid cid text name avatar uid : String}
    (hs : storeInv s) : storeInv (addComment s pid cid text name avatar uid).2 := by
  by_cases ht : text.isEmpty
  · simpa [addComment, ht] using hs
  · cases hf : findById s pid with
    | castError => simpa [addComment, ht, hf] using hs
    | nullDoc => simpa [addComment, ht, hf] using hs
    | found post =>
      have h2 : storeInv (saveP s { post with
          comments := Comment.mk cid text name avatar uid :: post.comments }) :=
        storeInv_saveP hs (hs post (findById_found_mem hf).1)
      simpa [addComment, ht, hf] using h2

theorem storeInv_deleteComment {s : Store} {pid commentId uid : String}
    (hs : storeInv s) : storeInv (deleteComment s pid commentId uid).2 := by
  cases hf : findById s pid with
  | castError => simpa [deleteComment, hf] using hs
  | nullDoc => simpa [deleteComment, hf] using hs
  | found post =>
    cases hc : post.comments.find? (fun c => c.cid == commentId) with
    | none => simpa [deleteComment, hf, hc] using hs
    | some comment =>
      by_cases hu : comment.user = uid
      · have h2 : storeInv (saveP s { post with
            comments := post.comments.eraseIdx
              ((post.comments.map fun c => c.user).indexOf uid) }) :=
          storeInv_saveP hs (hs post (findById_found_mem hf).1)
        simpa [deleteComment, hf, hc, bne_iff_ne, hu] using h2
      · simpa [deleteComment, hf, hc, bne_iff_ne, hu] using hs

theorem storeInv_deletePost {s : Store} {pid uid : String} (hs : storeInv s) :
    storeInv (deletePost s pid uid).2 := by
  cases hf : findById s pid with
  | castError => simpa [deletePost, hf] using hs
  | nullDoc => simpa [deletePost, hf] using hs
  | found post =>
    by_cases hu : post.user = uid
    · intro p hp
      simp only [deletePost, hf, bne_iff_ne, hu, ne_eq, not_true_eq_false, if_false,
        List.mem_filter] at hp
      exact hs p hp.1
    · simpa [deletePost, hf, bne_iff_ne, hu] using hs

theorem step_preserves_inv {s s' : Store} (hs : storeInv s) (h : Step s s') :
    storeInv s' := by
  cases h with
  | create => exact storeInv_createPost hs
  | like => exact storeInv_likePost hs
  | unlike => exact storeInv_unlikePost hs
  | comment => exact storeInv_addComment hs
  | uncomment => exact storeInv_deleteComment hs
  | remove => exact storeInv_deletePost hs

theorem reachable_inv {s : Store} (h : Reachable s) : storeInv s := by
  induction h with
  | nil => intro p hp; cases hp
  | step _ hstep ih => exact step_preserves_inv ih hstep

/-! ### Concrete sample data, used to evaluate the handlers at the
divergence points and to witness the hypotheses of the general theorems. -/

/-- A well-formed ObjectId present in the sample store. -/
def oid1 : String := "aaaaaaaaaaaaaaaaaaaaaaaa"

/-- A well-formed ObjectId absent from the sample store. -/
def oid2 : String := "bbbbbbbbbbbbbbbbbbbbbbbb"

/-- The newer comment (front of the list), authored by user `u`. -/
def commentNewer : Comment :=
  { cid := "c1", text := "newer", name := "n", avatar := "av", user := "u" }

/-- The older comment (back of the list), also authored by user `u`. -/
def commentOlder : Comment :=
  { cid := "c2", text := "older", name := "n", avatar := "av", user := "u" }

/-- A post by author `a` carrying two comments by the same user `u`,
the newer one first (most-recent-first order). -/
def postTwoComments : Post :=
  { pid := oid1, text := "t", name := "n", avatar := "av", user := "a"
    likes := [], comments := [commentNewer, commentOlder], date := 0 }

/-- C1: delete_comment is asked (by comment id) to remove the older
comment `c2`, authored by `u`; the handler instead erases the index of
the FIRST comment authored by the requester, so the newer comment `c1`
is removed and the targeted comment `c2` survives — the response body is
`[c2]`.  This evaluates the code at the failing input of the known
defect: removal indexed by author match rather than by `comment_id`. -/
theorem deleteComment_removes_wrong_comment :
    (deleteComment [postTwoComments] oid1 "c2" "u").1 = .ok [commentOlder] ∧
    commentOlder.cid = "c2" ∧ commentNewer.cid = "c1" ∧
    postTwoComments.comments = [commentNewer, commentOlder] := by decide

/-- C2: like and unlike on a post id no post has (`oid2` is well formed
but absent; the empty-store case and a malformed id behave the same) do
NOT fail NotFound: the handlers have no null-document check and no
CastError remap, so the thrown TypeError/CastError lands in the generic
catch block and the response is 500 Server Error. -/
theorem like_unlike_missing_post_server_error :
    (likePost [postTwoComments] oid2 "u").1 = .serverError ∧
    (unlikePost [postTwoComments] oid2 "u").1 = .serverError ∧
    (likePost [postTwoComments] "not-an-objectid" "u").1 = .serverError ∧
    (unlikePost [postTwoComments] "not-an-objectid" "u").1 = .serverError ∧
    (likePost [] oid2 "u").1 = .serverError ∧
    (unlikePost [] oid2 "u").1 = .serverError := by decide

/-- C3: delete_comment on a post id no post has does NOT fail NotFound:
reading `post.comments` of the null document throws, and the catch block
itself throws (`err` is not the parameter name), so the request receives
no response at all. -/
theorem deleteComment_missing_post_no_response :
    (deleteComment [postTwoComments] oid2 "c2" "u").1 = .noResponse ∧
    (deleteComment [postTwoComments] oid2 "c2" "u").2 = [postTwoComments] ∧
    (deleteComment [] oid2 "c2" "u").1 = .noResponse := by decide

/-- C4: every Post Service operation preserves the likes invariant
(at most one like entry per distinct user id, for every post in the
store), and consequently every store state reachable by sequential
execution of the operations satisfies it. -/
theorem likes_at_most_once_invariant :
    (∀ s s' : Store, storeInv s → Step s s' → storeInv s') ∧
    (∀ s : Store, Reachable s → storeInv s) :=
  ⟨fun _ _ hs h => step_preserves_inv hs h, fun _ h => reachable_inv h⟩

/-- Witness for C4: the invariant holds at the concrete store reached by
creating a post and then liking it. -/
theorem likes_at_most_once_invariant_witness :
    storeInv (likePost (createPost [] oid1 "t" "n" "av" "a" 0).2 oid1 "u").2 :=
  likes_at_most_once_invariant.2 _
    (Reachable.step
      (Reachable.step Reachable.nil (Step.create [] oid1 "t" "n" "av" "a" 0))
      (Step.like (createPost [] oid1 "t" "n" "av" "a" 0).2 oid1 "u"))

/-- C5: on an existing post not yet liked by `uid`, the first like
succeeds and prepends `{user: uid}`, the second like fails 400
"Post already liked", leaves the store untouched, and the post's likes
after the second call are exactly those after the first (length
unchanged). -/
theorem like_twice (s : Store) (pid uid : String) (post : Post)
    (hf : findById s pid = .found post)
    (hno : (post.likes.filter fun l => l.user == uid).length = 0) :
    (likePost s pid uid).1 = .ok (⟨uid⟩ :: post.likes) ∧
    (likePost (likePost s pid uid).2 pid uid).1 = .badRequest "Post already liked" ∧
    (likePost (likePost s pid uid).2 pid uid).2 = (likePost s pid uid).2 ∧
    findById (likePost (likePost s pid uid).2 pid uid).2 pid =
      .found { post with likes := ⟨uid⟩ :: post.likes } := by
  have h1 : likePost s pid uid =
      (.ok (⟨uid⟩ :: post.likes),
        saveP s { post with likes := ⟨uid⟩ :: post.likes }) := by
    simp [likePost, hf, hno]
  have hf2 : findById (likePost s pid uid).2 pid =
      .found { post with likes := ⟨uid⟩ :: post.likes } := by
    rw [h1]
    exact findById_saveP hf (findById_found_mem hf).2
  obtain ⟨s1, hs1⟩ : ∃ s1, (likePost s pid uid).2 = s1 := ⟨_, rfl⟩
  rw [hs1] at hf2
  have h2 : likePost s1 pid uid = (.badRequest "Post already liked", s1) := by
    simp [likePost, hf2]
  refine ⟨by rw [h1], by rw [hs1, h2], by rw [hs1, h2], by rw [hs1, h2]; exact hf2⟩

/-- Witness for C5 at a concrete store: one post, empty likes, user `u`. -/
theorem like_twice_witness :
    (likePost [postTwoComments] oid1 "u").1 = .ok (⟨"u"⟩ :: postTwoComments.likes) ∧
    (likePost (likePost [postTwoComments] oid1 "u").2 oid1 "u").1 =
      .badRequest "Post already liked" ∧
    (likePost (likePost [postTwoComments] oid1 "u").2 oid1 "u").2 =
      (likePost [postTwoComments] oid1 "u").2 ∧
    findById (likePost (likePost [postTwoComments] oid1 "u").2 oid1 "u").2 oid1 =
      .found { postTwoComments with likes := ⟨"u"⟩ :: postTwoComments.likes } :=
  like_twice [postTwoComments] oid1 "u" postTwoComments (by decide) (by decide)

/-- C6: on an existing post not yet liked by `uid`, like then unlike by
`uid` returns the likes sequence to its exact pre-like state: the unlike
responds with the original likes list, and the post stored afterwards is
the original post. -/
theorem like_unlike_roundtrip (s : Store) (pid uid : String) (post : Post)
    (hf : findById s pid = .found post)
    (hno : (post.likes.filter fun l => l.user == uid).length = 0) :
    (unlikePost (likePost s pid uid).2 pid uid).1 = .ok post.likes ∧
    findById (unlikePost (likePost s pid uid).2 pid uid).2 pid = .found post := by
  have h1 : (likePost s pid uid).2 =
      saveP s { post with likes := ⟨uid⟩ :: post.likes } := by
    simp [likePost, hf, hno]
  have hf2 : findById (likePost s pid uid).2 pid =
      .found { post with likes := ⟨uid⟩ :: post.likes } := by
    rw [h1]
    exact findById_saveP hf (findById_found_mem hf).2
  obtain ⟨s1, hs1⟩ : ∃ s1, (likePost s pid uid).2 = s1 := ⟨_, rfl⟩
  rw [hs1] at hf2
  have h2 : unlikePost s1 pid uid = (.ok post.likes, saveP s1 post) := by
    simp [unlikePost, hf2, List.indexOf_cons_self]
  refine ⟨by rw [hs1, h2], ?_⟩
  rw [hs1, h2]
  exact findById_saveP hf2 (findById_found_mem hf).2

/-- Witness for C6 at a concrete store: one post, empty likes, user `u`. -/
theorem like_unlike_roundtrip_witness :
    (unlikePost (likePost [postTwoComments] oid1 "u").2 oid1 "u").1 =
      .ok postTwoComments.likes ∧
    findById (unlikePost (likePost [postTwoComments] oid1 "u").2 oid1 "u").2 oid1 =
      .found postTwoComments :=
  like_unlike_roundtrip [postTwoComments] oid1 "u" postTwoComments (by decide) (by decide)

/-- C7: unlike on an existing post whose likes do not contain `uid`
fails 400 "Post has not yet been liked" and leaves the whole store (in
particular that post's likes) unchanged. -/
theorem unlike_not_yet_liked (s : Store) (pid uid : String) (post : Post)
    (hf : findById s pid = .found post)
    (hno : (post.likes.filter fun l => l.user == uid).length = 0) :
    unlikePost s pid uid = (.badRequest "Post has not yet been liked", s) := by
  simp [unlikePost, hf, hno]

/-- Witness for C7 at a concrete store: one post, empty likes, user `u`. -/
theorem unlike_not_yet_liked_witness :
    unlikePost [postTwoComments] oid1 "u" =
      (.badRequest "Post has not yet been liked", [postTwoComments]) :=
  unlike_not_yet_liked [postTwoComments] oid1 "u" postTwoComments (by decide) (by decide)

theorem find?_filter_out (s : Store) (pid : String) :
    (s.filter fun q => !(q.pid == pid)).find? (fun q => q.pid == pid) = none := by
  rw [List.find?_eq_none]
  intro q hq
  have := (List.mem_filter.mp hq).2
  simpa using this

/-- C8: deleting an existing post as a requester other than its author
fails 401 "User not authorized" and leaves the store unchanged (the post
intact); deleting it as the author succeeds and a subsequent get of the
same id fails 404 "Post not found". -/
theorem deletePost_ownership (s : Store) (pid rid : String) (post : Post)
    (hf : findById s pid = .found post) (hne : rid ≠ post.user) :
    deletePost s pid rid = (.unauthorized "User not authorized", s) ∧
    (deletePost s pid post.user).1 = .ok "Post removed" ∧
    getPost (deletePost s pid post.user).2 pid = .notFound "Post not found" := by
  have hv := (findById_eq_found.mp hf).1
  have hpid := (findById_found_mem hf).2
  refine ⟨?_, ?_, ?_⟩
  · simp [deletePost, hf, bne_iff_ne, Ne.symm hne]
  · simp [deletePost, hf]
  · have h2 : (deletePost s pid post.user).2 =
        s.filter fun q => !(q.pid == post.pid) := by
      simp [deletePost, hf]
    rw [h2, hpid]
    have h3 : List.find? (fun _ : Post => false) s = none :=
      List.find?_eq_none.mpr (by intro x _; simp)
    simp [getPost, findById, hv, find?_filter_out, h3]

/-- Witness for C8 at a concrete store: the post is authored by `a`,
the non-author requester is `u`. -/
theorem deletePost_ownership_witness :
    deletePost [postTwoComments] oid1 "u" =
      (.unauthorized "User not authorized", [postTwoComments]) ∧
    (deletePost [postTwoComments] oid1 postTwoComments.user).1 = .ok "Post removed" ∧
    getPost (deletePost [postTwoComments] oid1 postTwoComments.user).2 oid1 =
      .notFound "Post not found" :=
  deletePost_ownership [postTwoComments] oid1 "u" postTwoComments (by decide) (by decide)

/-- C9: on an existing post, add_comment prepends the newly allocated
comment and responds with the full updated comments sequence: after
adding comment C1 and then comment C2, the response to the second call
is `C2 :: C1 :: original`, so `comments[0] = C2` and `comments[1] = C1`. -/
theorem addComment_prepends (s : Store) (pid : String) (post : Post)
    (cid1 t1 n1 a1 u1 cid2 t2 n2 a2 u2 : String)
    (hf : findById s pid = .found post)
    (ht1 : t1.isEmpty = false) (ht2 : t2.isEmpty = false) :
    (addComment s pid cid1 t1 n1 a1 u1).1 =
      .ok (Comment.mk cid1 t1 n1 a1 u1 :: post.comments) ∧
    (addComment (addComment s pid cid1 t1 n1 a1 u1).2 pid cid2 t2 n2 a2 u2).1 =
      .ok (Comment.mk cid2 t2 n2 a2 u2 :: Comment.mk cid1 t1 n1 a1 u1 :: post.comments) := by
  have h1 : addComment s pid cid1 t1 n1 a1 u1 =
      (.ok (Comment.mk cid1 t1 n1 a1 u1 :: post.comments),
        saveP s { post with comments := Comment.mk cid1 t1 n1 a1 u1 :: post.comments }) := by
    simp [addComment, ht1, hf]
  have hf2 : findById (addComment s pid cid1 t1 n1 a1 u1).2 pid =
      .found { post with comments := Comment.mk cid1 t1 n1 a1 u1 :: post.comments } := by
    rw [h1]
    exact findById_saveP hf (findById_found_mem hf).2
  obtain ⟨s1, hs1⟩ : ∃ s1, (addComment s pid cid1 t1 n1 a1 u1).2 = s1 := ⟨_, rfl⟩
  rw [hs1] at hf2
  have h2 : (addComment s1 pid cid2 t2 n2 a2 u2).1 =
      .ok (Comment.mk cid2 t2 n2 a2 u2 :: Comment.mk cid1 t1 n1 a1 u1 :: post.comments) := by
    simp [addComment, ht2, hf2]
  exact ⟨by rw [h1], by rw [hs1]; exact h2⟩

/-- Witness for C9 at a concrete store: two comments added to the sample
post by users `u1` and `u2`. -/
theorem addComment_prepends_witness :
    (addComment [postTwoComments] oid1 "c3" "hello" "n1" "av1" "u1").1 =
      .ok (Comment.mk "c3" "hello" "n1" "av1" "u1" :: postTwoComments.comments) ∧
    (addComment (addComment [postTwoComments] oid1 "c3" "hello" "n1" "av1" "u1").2
        oid1 "c4" "world" "n2" "av2" "u2").1 =
      .ok (Comment.mk "c4" "world" "n2" "av2" "u2" ::
        Comment.mk "c3" "hello" "n1" "av1" "u1" :: postTwoComments.comments) :=
  addComment_prepends [postTwoComments] oid1 postTwoComments
    "c3" "hello" "n1" "av1" "u1" "c4" "world" "n2" "av2" "u2"
    (by decide) (by decide) (by decide)

/-! ### Frame properties of the mutating operations -/

/-- Positional relation between a pre-state post `q` and the post `q'`
at the same position afterwards, when only the `likes` of the post with
id `pid` may change: a post with a different id is entirely unchanged,
and in all cases every field except `likes` is unchanged. -/
def PostFrameLikes (pid : String) (q q' : Post) : Prop :=
  (q.pid ≠ pid → q' = q) ∧ q'.pid = q.pid ∧ q'.text = q.text ∧ q'.name = q.name ∧
  q'.avatar = q.avatar ∧ q'.user = q.user ∧ q'.date = q.date ∧ q'.comments = q.comments

/-- Positional relation when only the `comments` of the post with id
`pid` may change. -/
def PostFrameComments (pid : String) (q q' : Post) : Prop :=
  (q.pid ≠ pid → q' = q) ∧ q'.pid = q.pid ∧ q'.text = q.text ∧ q'.name = q.name ∧
  q'.avatar = q.avatar ∧ q'.user = q.user ∧ q'.date = q.date ∧ q'.likes = q.likes

/-- The store `s'` differs from `s` at most in the `likes` of the post
with id `pid`, position by position (in particular both stores have the
same length and no other post is modified). -/
def FrameLikes (s s' : Store) (pid : String) : Prop :=
  List.Forall₂ (PostFrameLikes pid) s s'

/-- The store `s'` differs from `s` at most in the `comments` of the
post with id `pid`, position by position. -/
def FrameComments (s s' : Store) (pid : String) : Prop :=
  List.Forall₂ (PostFrameComments pid) s s'

theorem frameLikes_saveP {s : Store} {pid : String} {post : Post} (L : List Like)
    (hnd : (s.map Post.pid).Nodup) (hmem : post ∈ s) (hpid : post.pid = pid) :
    FrameLikes s (saveP s { post with likes := L }) pid := by
  unfold FrameLikes saveP
  rw [List.forall₂_map_right_iff, List.forall₂_same]
  intro q hq
  by_cases h : q.pid = post.pid
  · have hq_eq : q = post := List.inj_on_of_nodup_map hnd hq hmem h
    subst hq_eq
    refine ⟨fun hne => absurd (h.trans hpid) hne, ?_⟩
    simp [h]
  · refine ⟨fun _ => by simp [h], ?_⟩
    simp [h]

theorem frameComments_saveP {s : Store} {pid : String} {post : Post} (C : List Comment)
    (hnd : (s.map Post.pid).Nodup) (hmem : post ∈ s) (hpid : post.pid = pid) :
    FrameComments s (saveP s { post with comments := C }) pid := by
  unfold FrameComments saveP
  rw [List.forall₂_map_right_iff, List.forall₂_same]
  intro q hq
  by_cases h : q.pid = post.pid
  · have hq_eq : q = post := List.inj_on_of_nodup_map hnd hq hmem h
    subst hq_eq
    refine ⟨fun hne => absurd (h.trans hpid) hne, ?_⟩
    simp [h]
  · refine ⟨fun _ => by simp [h], ?_⟩
    simp [h]

/-- C10: with store-assigned (hence pairwise distinct) post ids, a
successful like or unlike changes at most the `likes` of the addressed
post (all its other fields, including its comments, are unchanged), a
successful add_comment or delete_comment changes at most the `comments`
of the addressed post, and no other post in the store is modified. -/
theorem mutations_frame (s : Store) (pid uid cid text name avatar commentId : String)
    (hnd : (s.map Post.pid).Nodup) :
    (∀ body, (likePost s pid uid).1 = .ok body →
      FrameLikes s (likePost s pid uid).2 pid) ∧
    (∀ body, (unlikePost s pid uid).1 = .ok body →
      FrameLikes s (unlikePost s pid uid).2 pid) ∧
    (∀ body, (addComment s pid cid text name avatar uid).1 = .ok body →
      FrameComments s (addComment s pid cid text name avatar uid).2 pid) ∧
    (∀ body, (deleteComment s pid commentId uid).1 = .ok body →
      FrameComments s (deleteComment s pid commentId uid).2 pid) := by
  refine ⟨?_, ?_, ?_, ?_⟩
  · intro body hok
    cases hf : findById s pid with
    | castError => simp [likePost, hf] at hok
    | nullDoc => simp [likePost, hf] at hok
    | found post =>
      by_cases hg : (post.likes.filter fun l => l.user == uid).length > 0
      · simp [likePost, hf, hg] at hok
      · have h2 : (likePost s pid uid).2 =
            saveP s { post with likes := ⟨uid⟩ :: post.likes } := by
          simp [likePost, hf, hg]
        rw [h2]
        exact frameLikes_saveP _ hnd (findById_found_mem hf).1 (findById_found_mem hf).2
  · intro body hok
    cases hf : findById s pid with
    | castError => simp [unlikePost, hf] at hok
    | nullDoc => simp [unlikePost, hf] at hok
    | found post =>
      by_cases hg : (post.likes.filter fun l => l.user == uid).length = 0
      · simp [unlikePost, hf, hg] at hok
      · have h2 : (unlikePost s pid uid).2 = saveP s { post with
            likes := post.likes.eraseIdx ((post.likes.map fun l => l.user).indexOf uid) } := by
          simp [unlikePost, hf, hg]
        rw [h2]
        exact frameLikes_saveP _ hnd (findById_found_mem hf).1 (findById_found_mem hf).2
  · intro body hok
    by_cases ht : text.isEmpty
    · simp [addComment, ht] at hok
    · cases hf : findById s pid with
      | castError => simp [addComment, ht, hf] at hok
      | nullDoc => simp [addComment, ht, hf] at hok
      | found post =>
        have h2 : (addComment s pid cid text name avatar uid).2 = saveP s { post with
            comments := Comment.mk cid text name avatar uid :: post.comments } := by
          simp [addComment, ht, hf]
        rw [h2]
        exact frameComments_saveP _ hnd (findById_found_mem hf).1 (findById_found_mem hf).2
  · intro body hok
    cases hf : findById s pid with
    | castError => simp [deleteComment, hf] at hok
    | nullDoc => simp [deleteComment, hf] at hok
    | found post =>
      cases hc : post.comments.find? (fun c => c.cid == commentId) with
      | none => simp [deleteComment, hf, hc] at hok
      | some comment =>
        by_cases hu : comment.user = uid
        · have h2 : (deleteComment s pid commentId uid).2 = saveP s { post with
              comments := post.comments.eraseIdx
                ((post.comments.map fun c => c.user).indexOf uid) } := by
            simp [deleteComment, hf, hc, bne_iff_ne, hu]
          rw [h2]
          exact frameComments_saveP _ hnd (findById_found_mem hf).1 (findById_found_mem hf).2
        · simp [deleteComment, hf, hc, bne_iff_ne, hu] at hok

/-- Witness for C10: the like conjunct applied at a concrete one-post
store with distinct ids. -/
theorem mutations_frame_witness :
    FrameLikes [postTwoComments] (likePost [postTwoComments] oid1 "u").2 oid1 :=
  (mutations_frame [postTwoComments] oid1 "u" "c9" "t" "n" "av" "c2" (by decide)).1
    (⟨"u"⟩ :: postTwoComments.likes) (by decide)

end DevConnector
